import Mathlib

/-!
The asset attachment record `asset_detail` of mvs-node.

A shallow embedding of `chain/attachment/asset/asset_detail.hpp` and
`asset_detail.cpp`: the record, its validity test, the secondary-issue
threshold byte, the packed attenuation byte and the wire codec
(`from_data` / `to_data`).

Machine integers are natural numbers; every narrowing the C++ performs
(`uint8_t` results of `int` arithmetic) is written out with `to_uint8`,
and `size_t` sums with `to_size_t`.  A `std::string` is the list of its
bytes.
-/

set_option autoImplicit false

/-- A `std::string`: its bytes, in order. -/
abbrev std_string := List Nat

/-- A `data_chunk`: a vector of bytes. -/
abbrev data_chunk := List Nat

/-- Narrowing of an `int` value to `uint8_t`. -/
def to_uint8 (x : Int) : Nat := (x % 256).toNat

/-- Wrap-around of a sum computed in `size_t` (64 bits). -/
def to_size_t (x : Nat) : Nat := x % 2 ^ 64

def ASSET_DETAIL_SYMBOL_FIX_SIZE : Nat := 64
def ASSET_DETAIL_MAX_SUPPLY_FIX_SIZE : Nat := 8
def ASSET_DETAIL_ASSET_TYPE_FIX_SIZE : Nat := 4
def ASSET_DETAIL_ISSUER_FIX_SIZE : Nat := 64
def ASSET_DETAIL_ADDRESS_FIX_SIZE : Nat := 64
def ASSET_DETAIL_DESCRIPTION_FIX_SIZE : Nat := 64

def ASSET_DETAIL_FIX_SIZE : Nat :=
  ASSET_DETAIL_SYMBOL_FIX_SIZE
    + ASSET_DETAIL_MAX_SUPPLY_FIX_SIZE
    + ASSET_DETAIL_ASSET_TYPE_FIX_SIZE
    + ASSET_DETAIL_ISSUER_FIX_SIZE
    + ASSET_DETAIL_ADDRESS_FIX_SIZE
    + ASSET_DETAIL_DESCRIPTION_FIX_SIZE

/-- The enumerators of `enum class attenuation_model : uint8_t`. -/
inductive attenuation_model where
  | none
  | fixed_quantity
  | fixed_rate
  | unused1
  | unused2
  | unused3
  | unused4
  | unused5
  | invalid
deriving DecidableEq, Repr

/-- `MODEL2UINT8(model)`: the underlying value of an enumerator. -/
def MODEL2UINT8 : attenuation_model → Nat
  | .none => 0
  | .fixed_quantity => 1
  | .fixed_rate => 2
  | .unused1 => 3
  | .unused2 => 4
  | .unused3 => 5
  | .unused4 => 6
  | .unused5 => 7
  | .invalid => 8

def ATTENUATION_MODEL_NONE : Nat := MODEL2UINT8 attenuation_model.none
def ATTENUATION_MODEL_FIXED_QUANTITY : Nat := MODEL2UINT8 attenuation_model.fixed_quantity
def ATTENUATION_MODEL_FIXED_RATE : Nat := MODEL2UINT8 attenuation_model.fixed_rate
def ATTENUATION_MODEL_FIRST_UNUSED : Nat := MODEL2UINT8 attenuation_model.unused1

/-- The private data members of `class asset_detail`, in declaration order. -/
structure asset_detail where
  symbol : std_string
  maximum_supply : Nat
  decimal_number : Nat
  secondaryissue_threshold : Nat
  attenuation_model_index : Nat
  unused2 : Nat
  unused3 : Nat
  issuer : std_string
  address : std_string
  description : std_string
deriving DecidableEq, Repr

/-- A string that fits the machine: every element is a byte and the length
is a `size_t`. -/
def std_string_ok (s : std_string) : Prop :=
  (∀ c ∈ s, c < 256) ∧ s.length < 2 ^ 64

instance (s : std_string) : Decidable (std_string_ok s) := by
  unfold std_string_ok; infer_instance

namespace asset_detail

/-- The ranges the C++ member types impose: `uint64_t`, `uint8_t`, the
bit-fields `:3` and `:5`, byte strings; the four strings live in one 64-bit
address space, so their lengths plus the 16 fixed bytes stay below `2^64`. -/
def well_formed (self : asset_detail) : Prop :=
  self.maximum_supply < 2 ^ 64
    ∧ self.decimal_number < 256
    ∧ self.secondaryissue_threshold < 256
    ∧ self.attenuation_model_index < 8
    ∧ self.unused2 < 32
    ∧ self.unused3 < 256
    ∧ std_string_ok self.symbol
    ∧ std_string_ok self.issuer
    ∧ std_string_ok self.address
    ∧ std_string_ok self.description
    ∧ self.symbol.length + self.issuer.length + self.address.length
        + self.description.length + 16 < 2 ^ 64

instance (self : asset_detail) : Decidable (well_formed self) := by
  unfold well_formed; infer_instance

/-- `void asset_detail::reset()`. -/
def reset (self : asset_detail) : asset_detail :=
  let self := { self with symbol := [] }
  let self := { self with maximum_supply := 0 }
  let self := { self with decimal_number := 0 }
  let self := { self with secondaryissue_threshold := 0 }
  let self := { self with attenuation_model_index := ATTENUATION_MODEL_NONE }
  let self := { self with unused2 := 0 }
  let self := { self with unused3 := 0 }
  let self := { self with issuer := [] }
  let self := { self with address := [] }
  { self with description := [] }

/-- `bool asset_detail::is_valid() const`. -/
def is_valid (self : asset_detail) : Bool :=
  !(self.symbol.isEmpty
      || (self.maximum_supply == 0)
      || decide (to_size_t (self.symbol.length + 8 + 4 + self.issuer.length
            + self.address.length + self.description.length + 4)
          > ASSET_DETAIL_FIX_SIZE))

/-! ### The secondary-issue threshold byte -/

/-- `static bool is_secondaryissue_forbidden(uint8_t threshold)`. -/
def is_secondaryissue_forbidden_value (threshold : Nat) : Bool := threshold == 0

/-- `static bool is_secondaryissue_freely(uint8_t threshold)`. -/
def is_secondaryissue_freely_value (threshold : Nat) : Bool := threshold == 255

/-- `static bool is_secondaryissue_legal(uint8_t threshold)`. -/
def is_secondaryissue_legal_value (threshold : Nat) : Bool :=
  is_secondaryissue_freely_value threshold
    || (decide (threshold ≥ 1) && decide (threshold ≤ 100))

/-- `static bool is_secondaryissue_threshold_value_ok(uint8_t threshold)`. -/
def is_secondaryissue_threshold_value_ok_value (threshold : Nat) : Bool :=
  is_secondaryissue_forbidden_value threshold || is_secondaryissue_legal_value threshold

/-- `static bool is_secondaryissue_owns_enough(uint64_t own, uint64_t total,
uint8_t threshold)`.  The last line compares `own` with
`(uint64_t)(((double)total) / 100 * threshold)`; here that value is supplied
by `share total threshold`, so that what is proved of the two guards holds
whatever it is.  `is_secondaryissue_owns_enough_double` below computes it. -/
def is_secondaryissue_owns_enough (share : Nat → Nat → Nat)
    (own total threshold : Nat) : Bool :=
  if is_secondaryissue_freely_value threshold then true
  else if !is_secondaryissue_legal_value threshold then false
  else decide (own ≥ share total threshold)

/-- `bool is_asset_secondaryissue() const`. -/
def is_asset_secondaryissue (self : asset_detail) : Bool :=
  decide (self.secondaryissue_threshold ≥ 128)

/-- `void set_asset_secondaryissue()`. -/
def set_asset_secondaryissue (self : asset_detail) : asset_detail :=
  if !self.is_asset_secondaryissue then
    { self with secondaryissue_threshold :=
        to_uint8 ((self.secondaryissue_threshold : Int) + 128) }
  else self

/-- `bool is_secondaryissue_forbidden() const`: tests the stored byte. -/
def is_secondaryissue_forbidden (self : asset_detail) : Bool :=
  is_secondaryissue_forbidden_value self.secondaryissue_threshold

/-- `bool is_secondaryissue_freely() const`: tests the stored byte. -/
def is_secondaryissue_freely (self : asset_detail) : Bool :=
  is_secondaryissue_freely_value self.secondaryissue_threshold

/-- `uint8_t get_secondaryissue_threshold() const`. -/
def get_secondaryissue_threshold (self : asset_detail) : Nat :=
  if self.is_secondaryissue_freely then self.secondaryissue_threshold
  else if self.is_asset_secondaryissue then
    to_uint8 ((self.secondaryissue_threshold : Int) - 128)
  else self.secondaryissue_threshold

/-- `void set_secondaryissue_threshold(uint8_t share)`. -/
def set_secondaryissue_threshold (self : asset_detail) (share : Nat) : asset_detail :=
  if self.is_asset_secondaryissue then
    { self with secondaryissue_threshold := to_uint8 ((share : Int) + 128) }
  else
    { self with secondaryissue_threshold := share }

/-- `bool is_secondaryissue_threshold_value_ok()`. -/
def is_secondaryissue_threshold_value_ok (self : asset_detail) : Bool :=
  is_secondaryissue_threshold_value_ok_value self.get_secondaryissue_threshold

/-- `bool is_secondaryissue_legal() const`. -/
def is_secondaryissue_legal (self : asset_detail) : Bool :=
  is_secondaryissue_legal_value self.get_secondaryissue_threshold

end asset_detail

/-! ### Byte streams, `reader` and `writer`

`utility/reader.hpp`, `utility/writer.hpp` and the stream classes are not
among the sources.  `from_data` and `to_data` are therefore written over an
arbitrary `reader` and `writer`; `istream_reader` and `ostream_writer` below
are one concrete pair. -/

/-- Modelled from the spec: the input stream a `reader` consumes
(`utility/reader.hpp` and the stream classes are missing from the sources):
the bytes not yet read and the stream's failure flag, which
`static_cast<bool>(source)` negates. -/
structure istream where
  unread : data_chunk
  failed : Bool
deriving DecidableEq, Repr

/-- Modelled from the spec: the three `reader` primitives `from_data` calls
(`utility/reader.hpp` is missing from the sources); each returns the value
read and the stream afterwards. -/
structure reader where
  read_byte : istream → Nat × istream
  read_8_bytes_little_endian : istream → Nat × istream
  read_string : istream → std_string × istream

/-- Modelled from the spec: the three `writer` primitives `to_data` calls
(`utility/writer.hpp` is missing from the sources), each given by the bytes
it emits, "exactly the bytes implied by the current field value". -/
structure writer where
  byte : Nat → data_chunk
  eight_bytes_little_endian : Nat → data_chunk
  string : std_string → data_chunk

namespace writer

/-- `sink.write_byte(value)`: the emitted bytes are appended to the sink. -/
def write_byte (w : writer) (sink : data_chunk) (value : Nat) : data_chunk :=
  sink ++ w.byte value

/-- `sink.write_8_bytes_little_endian(value)`. -/
def write_8_bytes_little_endian (w : writer) (sink : data_chunk) (value : Nat) : data_chunk :=
  sink ++ w.eight_bytes_little_endian value

/-- `sink.write_string(value)`. -/
def write_string (w : writer) (sink : data_chunk) (value : std_string) : data_chunk :=
  sink ++ w.string value

end writer

/-- Each read of `rd` undoes the matching write of `wr`: reading from a good
stream that starts with the bytes written for a value returns that value and
leaves the stream good, positioned right after those bytes. -/
def reader.undoes (rd : reader) (wr : writer) : Prop :=
  (∀ b rest, b < 256 →
      rd.read_byte ⟨wr.byte b ++ rest, false⟩ = (b, ⟨rest, false⟩))
    ∧ (∀ n rest, n < 2 ^ 64 →
      rd.read_8_bytes_little_endian ⟨wr.eight_bytes_little_endian n ++ rest, false⟩
        = (n, ⟨rest, false⟩))
    ∧ (∀ s rest, std_string_ok s →
      rd.read_string ⟨wr.string s ++ rest, false⟩ = (s, ⟨rest, false⟩))

namespace asset_detail

/-- The low 3 bits of the packed byte, as `from_data` takes them:
`attenuation_model_index = (byte_num & 0x7)`. -/
def from_data_attenuation_model_index (byte_num : Nat) : Nat := byte_num &&& 0x7

/-- The high 5 bits of the packed byte, as `from_data` takes them:
`unused2 = ((byte_num >> 3) & 0x1f)`. -/
def from_data_unused2 (byte_num : Nat) : Nat := (byte_num >>> 3) &&& 0x1f

/-- `bool asset_detail::from_data(reader& source)`: returns the result, the
record afterwards and the stream afterwards. -/
def from_data (rd : reader) (self : asset_detail) (source : istream) :
    Bool × asset_detail × istream :=
  let self := self.reset
  let r := rd.read_string source
  let self := { self with symbol := r.1 }
  let r := rd.read_8_bytes_little_endian r.2
  let self := { self with maximum_supply := r.1 }
  let r := rd.read_byte r.2
  let self := { self with decimal_number := r.1 }
  let r := rd.read_byte r.2
  let self := { self with secondaryissue_threshold := r.1 }
  let r := rd.read_byte r.2
  let byte_num := r.1
  let self := { self with attenuation_model_index := from_data_attenuation_model_index byte_num }
  let self := { self with unused2 := from_data_unused2 byte_num }
  let r := rd.read_byte r.2
  let self := { self with unused3 := r.1 }
  let r := rd.read_string r.2
  let self := { self with issuer := r.1 }
  let r := rd.read_string r.2
  let self := { self with address := r.1 }
  let r := rd.read_string r.2
  let self := { self with description := r.1 }
  let source := r.2
  let result := !source.failed
  if !result then (result, self.reset, source) else (result, self, source)

/-- `bool asset_detail::from_data(const data_chunk& data)`: a fresh stream
over `data` is handed to the reader version. -/
def from_data_chunk (rd : reader) (self : asset_detail) (data : data_chunk) :
    Bool × asset_detail :=
  let res := from_data rd self ⟨data, false⟩
  (res.1, res.2.1)

/-- The byte `to_data` packs: `attenuation_model_index + (unused2 << 3)`,
computed in `int` and narrowed to `uint8_t byte_num`. -/
def to_data_byte_num (self : asset_detail) : Nat :=
  to_uint8 ((self.attenuation_model_index + (self.unused2 <<< 3) : Nat) : Int)

/-- `void asset_detail::to_data(writer& sink) const`. -/
def to_data (wr : writer) (self : asset_detail) (sink : data_chunk) : data_chunk :=
  let sink := wr.write_string sink self.symbol
  let sink := wr.write_8_bytes_little_endian sink self.maximum_supply
  let sink := wr.write_byte sink self.decimal_number
  let sink := wr.write_byte sink self.secondaryissue_threshold
  let byte_num := self.to_data_byte_num
  let sink := wr.write_byte sink byte_num
  let sink := wr.write_byte sink self.unused3
  let sink := wr.write_string sink self.issuer
  let sink := wr.write_string sink self.address
  wr.write_string sink self.description

/-- `data_chunk asset_detail::to_data() const`: the writer version run on an
empty chunk. -/
def to_data_chunk (wr : writer) (self : asset_detail) : data_chunk :=
  to_data wr self []

end asset_detail

/-! ### A concrete reader and writer -/

/-- Modelled from the spec: the fixed-width little-endian integer encoding
of the shared binary primitives (missing from the sources): the `k` low
bytes of `n`, least significant first. -/
def to_little_endian : Nat → Nat → data_chunk
  | 0, _ => []
  | k + 1, n => (n % 256) :: to_little_endian k (n / 256)

/-- Modelled from the spec: the number whose little-endian bytes are given
(the decoding side of the missing fixed-width integer primitive). -/
def from_little_endian : data_chunk → Nat
  | [] => 0
  | b :: bs => b + 256 * from_little_endian bs

/-- Modelled from the spec: reading `n` raw bytes (the reader's byte source
is missing from the sources).  A read on a failed stream, or one that asks
for more than is left, fails: nothing is returned and the flag is set. -/
def read_data (n : Nat) (s : istream) : data_chunk × istream :=
  if s.failed then ([], s)
  else if s.unread.length < n then ([], ⟨[], true⟩)
  else (s.unread.take n, ⟨s.unread.drop n, false⟩)

/-- Modelled from the spec: reading an `n`-byte little-endian integer (the
missing reader's fixed-width primitive). -/
def read_little_endian (n : Nat) (s : istream) : Nat × istream :=
  let r := read_data n s
  (from_little_endian r.1, r.2)

/-- Modelled from the spec: the length that delimits a string on the wire
(the string primitive is missing from the sources), written as the wire
format's variable-length integer: one byte below `0xfd`, else a marker byte
followed by 2, 4 or 8 little-endian bytes. -/
def write_variable_uint_little_endian (n : Nat) : data_chunk :=
  if n < 0xfd then [n]
  else if n ≤ 0xffff then 0xfd :: to_little_endian 2 n
  else if n ≤ 0xffffffff then 0xfe :: to_little_endian 4 n
  else 0xff :: to_little_endian 8 n

/-- Modelled from the spec: reading the length that delimits a string (the
missing reader's side of the string primitive). -/
def read_variable_uint_little_endian (s : istream) : Nat × istream :=
  let r := read_little_endian 1 s
  if r.1 = 0xfd then read_little_endian 2 r.2
  else if r.1 = 0xfe then read_little_endian 4 r.2
  else if r.1 = 0xff then read_little_endian 8 r.2
  else r

/-- Modelled from the spec: a reader over a byte stream (the repository's
`istream_reader` is missing from the sources): single bytes, fixed-width
little-endian integers and length-delimited strings, each read consuming
exactly the bytes it declares. -/
def istream_reader : reader where
  read_byte := read_little_endian 1
  read_8_bytes_little_endian := read_little_endian 8
  read_string := fun s =>
    let r := read_variable_uint_little_endian s
    read_data r.1 r.2

/-- Modelled from the spec: the matching writer (the repository's
`ostream_writer` is missing from the sources). -/
def ostream_writer : writer where
  byte := to_little_endian 1
  eight_bytes_little_endian := to_little_endian 8
  string := fun s => write_variable_uint_little_endian s.length ++ s

/-! ### Size estimate, string setters, attenuation model, certificate mask -/

/-- A store into a `uint8_t` bit-field of the given width keeps the low
`width` bits of the value. -/
def to_bit_field (width : Nat) (value : Nat) : Nat := value % 2 ^ width

namespace asset_detail

/-- `uint64_t asset_detail::serialized_size() const`. -/
def serialized_size (self : asset_detail) : Nat :=
  let len := to_size_t (self.symbol.length + 8 + 4 + self.issuer.length
    + self.address.length + self.description.length + 4)
  min ASSET_DETAIL_FIX_SIZE len

/-- `void asset_detail::set_symbol(const std::string& symbol)`;
`substr(0, len)` keeps the first `len` bytes, or all of them when there are
fewer. -/
def set_symbol (self : asset_detail) (symbol : std_string) : asset_detail :=
  let len := if to_size_t (symbol.length + 1) < ASSET_DETAIL_SYMBOL_FIX_SIZE
    then to_size_t (symbol.length + 1) else ASSET_DETAIL_SYMBOL_FIX_SIZE
  { self with symbol := symbol.take len }

/-- `void asset_detail::set_issuer(const std::string& issuer)`. -/
def set_issuer (self : asset_detail) (issuer : std_string) : asset_detail :=
  let len := if to_size_t (issuer.length + 1) < ASSET_DETAIL_ISSUER_FIX_SIZE
    then to_size_t (issuer.length + 1) else ASSET_DETAIL_ISSUER_FIX_SIZE
  { self with issuer := issuer.take len }

/-- `void asset_detail::set_address(const std::string& address)`. -/
def set_address (self : asset_detail) (address : std_string) : asset_detail :=
  let len := if to_size_t (address.length + 1) < ASSET_DETAIL_ADDRESS_FIX_SIZE
    then to_size_t (address.length + 1) else ASSET_DETAIL_ADDRESS_FIX_SIZE
  { self with address := address.take len }

/-- `void asset_detail::set_description(const std::string& description)`. -/
def set_description (self : asset_detail) (description : std_string) : asset_detail :=
  let len := if to_size_t (description.length + 1) < ASSET_DETAIL_DESCRIPTION_FIX_SIZE
    then to_size_t (description.length + 1) else ASSET_DETAIL_DESCRIPTION_FIX_SIZE
  { self with description := description.take len }

/-- `void set_attenuation_model(attenuation_model model)`: the store goes
into the 3-bit field. -/
def set_attenuation_model (self : asset_detail) (model : attenuation_model) : asset_detail :=
  { self with attenuation_model_index := to_bit_field 3 (MODEL2UINT8 model) }

/-- `void set_attenuation_model_index(uint8_t index)`: the store goes into
the 3-bit field. -/
def set_attenuation_model_index (self : asset_detail) (index : Nat) : asset_detail :=
  { self with attenuation_model_index := to_bit_field 3 index }

/-- `uint8_t get_attenuation_model_index() const`. -/
def get_attenuation_model_index (self : asset_detail) : Nat :=
  self.attenuation_model_index

/-- The cast `(attenuation_model)value` of a `uint8_t`: the enumerator whose
underlying value is `value`; a value that is no enumerator's has none. -/
def to_attenuation_model (value : Nat) : Option attenuation_model :=
  [attenuation_model.none, attenuation_model.fixed_quantity, attenuation_model.fixed_rate,
    attenuation_model.unused1, attenuation_model.unused2, attenuation_model.unused3,
    attenuation_model.unused4, attenuation_model.unused5, attenuation_model.invalid].find?
    (fun m => MODEL2UINT8 m == value)

/-- `attenuation_model get_attenuation_model() const`. -/
def get_attenuation_model (self : asset_detail) : Option attenuation_model :=
  to_attenuation_model self.attenuation_model_index

/-- `bool is_attenuation_model_index_valid()`. -/
def is_attenuation_model_index_valid (self : asset_detail) : Bool :=
  decide (self.attenuation_model_index < ATTENUATION_MODEL_FIRST_UNUSED)

/-- `asset_cert_type asset_detail::get_asset_cert_mask() const`; the two
constants `asset_cert_ns::none` and `asset_cert_ns::issue` come from
`asset_cert.hpp` and are passed in. -/
def get_asset_cert_mask (none issue : Nat) (self : asset_detail) : Nat :=
  let certs := none
  if self.is_secondaryissue_legal then certs ||| issue else certs

end asset_detail

/-! ### The share in double precision

`is_secondaryissue_owns_enough` compares `own` with
`(uint64_t)(((double)total) / 100 * threshold)`.  The `double` steps are
modelled exactly: a finite non-negative binary64 value is a whole multiple
of `2^-1074`, so it is held as that multiple, a natural number; every
operation computes the exact rational result and rounds it once to the
nearest value with a 53-bit significand, ties to even (the default rounding
mode, every intermediate kept in binary64).  No value of this computation
comes near the overflow threshold `2^1024`. -/

namespace asset_detail

end asset_detail

/-! ### Truncated input -/

/-- Reads on a failed stream leave it failed. -/
def reader.sticky (rd : reader) : Prop :=
  ∀ s : istream, s.failed = true →
    (rd.read_byte s).2.failed = true
      ∧ (rd.read_8_bytes_little_endian s).2.failed = true
      ∧ (rd.read_string s).2.failed = true

/-- A read from a good stream that ends inside the bytes written for a
value (`p` followed by a non-empty `t` would be those bytes) fails. -/
def reader.fails_short (rd : reader) (wr : writer) : Prop :=
  (∀ b p t, b < 256 → t ≠ [] → p ++ t = wr.byte b →
      (rd.read_byte ⟨p, false⟩).2.failed = true)
    ∧ (∀ n p t, n < 2 ^ 64 → t ≠ [] → p ++ t = wr.eight_bytes_little_endian n →
      (rd.read_8_bytes_little_endian ⟨p, false⟩).2.failed = true)
    ∧ (∀ s p t, std_string_ok s → t ≠ [] → p ++ t = wr.string s →
      (rd.read_string ⟨p, false⟩).2.failed = true)

/-- The stream has failed, or what is left of it stops short of `tail`. -/
def failed_or_short (tail : data_chunk) (s : istream) : Prop :=
  s.failed = true ∨ ∃ t, t ≠ [] ∧ s.unread ++ t = tail

/-- The stream after the nine reads of `from_data`, in their order. -/
def after_reads (rd : reader) (source : istream) : istream :=
  let r := rd.read_string source
  let r := rd.read_8_bytes_little_endian r.2
  let r := rd.read_byte r.2
  let r := rd.read_byte r.2
  let r := rd.read_byte r.2
  let r := rd.read_byte r.2
  let r := rd.read_string r.2
  let r := rd.read_string r.2
  let r := rd.read_string r.2
  r.2

/-! ### Sample records -/

/-- A valid record: symbol `MVS.T`, flag bit set with a share of 50, model
`fixed_quantity`, both reserved fields non-zero. -/
def sample_record : asset_detail where
  symbol := [77, 86, 83, 46, 84]
  maximum_supply := 1000
  decimal_number := 2
  secondaryissue_threshold := 178
  attenuation_model_index := 1
  unused2 := 0x1B
  unused3 := 7
  issuer := [97, 98]
  address := [77]
  description := []

/-- A record holding other data, to be overwritten by a decode. -/
def stale_record : asset_detail where
  symbol := [88]
  maximum_supply := 5
  decimal_number := 1
  secondaryissue_threshold := 255
  attenuation_model_index := 2
  unused2 := 3
  unused3 := 4
  issuer := [89]
  address := [90]
  description := [91, 92]

/-- A record with the flag bit set and a share of 0: raw byte 128. -/
def flagged_zero_record : asset_detail :=
  { sample_record with secondaryissue_threshold := 128 }

/-- A record over the size budget: a description of 300 bytes. -/
def oversize_record : asset_detail :=
  { sample_record with description := List.replicate 300 120 }

/-! ## Auxiliary facts -/

/-- Whatever the record held, `reset()` leaves the all-empty, all-zero one. -/
theorem reset_eq_default (r : asset_detail) :
    r.reset = ⟨[], 0, 0, 0, 0, 0, 0, [], [], []⟩ := rfl

theorem to_uint8_natCast (n : Nat) : to_uint8 (n : Int) = n % 256 := by
  unfold to_uint8; omega

theorem to_uint8_add_128 (n : Nat) : to_uint8 ((n : Int) + 128) = (n + 128) % 256 := by
  unfold to_uint8; omega

theorem to_uint8_sub_128 (n : Nat) (h : 128 ≤ n) :
    to_uint8 ((n : Int) - 128) = (n - 128) % 256 := by
  unfold to_uint8; omega

/-- The mask-and-shift split of a byte, in arithmetic terms. -/
theorem byte_num_split (b : Nat) :
    b &&& 0x7 = b % 8 ∧ (b >>> 3) &&& 0x1f = b / 8 % 32 := by
  constructor
  · exact Nat.and_pow_two_sub_one_eq_mod b 3
  · rw [Nat.shiftRight_eq_div_pow]; exact Nat.and_pow_two_sub_one_eq_mod _ 5

theorem shiftLeft_three (u : Nat) : u <<< 3 = 8 * u := by
  rw [Nat.shiftLeft_eq]; omega

theorem add_eq_or_shiftLeft_three : ∀ i < 8, ∀ u < 32, i + (u <<< 3) = i ||| (u <<< 3) := by
  decide

theorem to_data_byte_num_eq (r : asset_detail) :
    r.to_data_byte_num = (r.attenuation_model_index + 8 * r.unused2) % 256 := by
  unfold asset_detail.to_data_byte_num
  rw [to_uint8_natCast, shiftLeft_three]

/-! ### The concrete reader undoes the concrete writer -/

theorem to_little_endian_length (k n : Nat) : (to_little_endian k n).length = k := by
  induction k generalizing n with
  | zero => rfl
  | succ k ih => simp [to_little_endian, ih]

theorem from_to_little_endian (k n : Nat) (h : n < 256 ^ k) :
    from_little_endian (to_little_endian k n) = n := by
  induction k generalizing n with
  | zero => simp at h; simp [to_little_endian, from_little_endian, h]
  | succ k ih =>
    have hk : n / 256 < 256 ^ k := by
      rw [Nat.div_lt_iff_lt_mul (by norm_num)]
      rw [pow_succ] at h
      exact h
    simp only [to_little_endian, from_little_endian, ih _ hk]
    omega

theorem read_data_append (pre rest : data_chunk) :
    read_data pre.length ⟨pre ++ rest, false⟩ = (pre, ⟨rest, false⟩) := by
  simp [read_data]

theorem read_little_endian_append (k n : Nat) (rest : data_chunk) (h : n < 256 ^ k) :
    read_little_endian k ⟨to_little_endian k n ++ rest, false⟩ = (n, ⟨rest, false⟩) := by
  have e := read_data_append (to_little_endian k n) rest
  rw [to_little_endian_length] at e
  simp [read_little_endian, e, from_to_little_endian k n h]

theorem read_byte_cons (b : Nat) (rest : data_chunk) :
    read_little_endian 1 ⟨b :: rest, false⟩ = (b, ⟨rest, false⟩) := by
  simp [read_little_endian, read_data, from_little_endian]

theorem read_write_variable_uint (n : Nat) (rest : data_chunk) (h : n < 2 ^ 64) :
    read_variable_uint_little_endian ⟨write_variable_uint_little_endian n ++ rest, false⟩
      = (n, ⟨rest, false⟩) := by
  unfold write_variable_uint_little_endian read_variable_uint_little_endian
  by_cases h1 : n < 0xfd
  · have a : n ≠ 0xfd := by omega
    have b : n ≠ 0xfe := by omega
    have c : n ≠ 0xff := by omega
    simp [h1, read_byte_cons, a, b, c]
  · by_cases h2 : n ≤ 0xffff
    · simp [h1, h2, read_byte_cons]
      exact read_little_endian_append 2 n rest (by norm_num; omega)
    · by_cases h3 : n ≤ 0xffffffff
      · simp [h1, h2, h3, read_byte_cons]
        exact read_little_endian_append 4 n rest (by norm_num; omega)
      · simp [h1, h2, h3, read_byte_cons]
        exact read_little_endian_append 8 n rest (by norm_num; omega)

theorem istream_reader_undoes_ostream_writer : istream_reader.undoes ostream_writer := by
  refine ⟨?_, ?_, ?_⟩
  · intro b rest hb
    exact read_little_endian_append 1 b rest (by simpa using hb)
  · intro n rest hn
    exact read_little_endian_append 8 n rest (by norm_num; omega)
  · intro s rest hs
    show read_data _ _ = _
    simp only [ostream_writer, List.append_assoc]
    rw [read_write_variable_uint _ _ hs.2]
    exact read_data_append s rest

/-! ### Round trip -/

theorem to_data_eq (wr : writer) (r : asset_detail) (sink : data_chunk) :
    r.to_data wr sink = sink ++ (wr.string r.symbol
      ++ (wr.eight_bytes_little_endian r.maximum_supply
      ++ (wr.byte r.decimal_number
      ++ (wr.byte r.secondaryissue_threshold
      ++ (wr.byte r.to_data_byte_num
      ++ (wr.byte r.unused3
      ++ (wr.string r.issuer
      ++ (wr.string r.address
      ++ wr.string r.description)))))))) := by
  simp [asset_detail.to_data, writer.write_string, writer.write_byte,
    writer.write_8_bytes_little_endian]

/-- Reading what `to_data` wrote, with any bytes after it, gives the record
back and leaves the stream good at those bytes. -/
theorem from_data_to_data_append (rd : reader) (wr : writer) (h : rd.undoes wr)
    (prev r : asset_detail) (hr : r.well_formed) (rest : data_chunk) :
    asset_detail.from_data rd prev ⟨r.to_data wr [] ++ rest, false⟩
      = (true, r, ⟨rest, false⟩) := by
  obtain ⟨hb, h8, hs⟩ := h
  obtain ⟨h1, h2, h3, h4, h5, h6, h7, h8', h9, h10, -⟩ := hr
  have hbn : r.to_data_byte_num < 256 := by
    rw [to_data_byte_num_eq]; omega
  have l1 := fun rest => hs r.symbol rest h7
  have l2 := fun rest => h8 r.maximum_supply rest h1
  have l3 := fun rest => hb r.decimal_number rest h2
  have l4 := fun rest => hb r.secondaryissue_threshold rest h3
  have l5 := fun rest => hb r.to_data_byte_num rest hbn
  have l6 := fun rest => hb r.unused3 rest h6
  have l7 := fun rest => hs r.issuer rest h8'
  have l8 := fun rest => hs r.address rest h9
  have l9 := fun rest => hs r.description rest h10
  have s1 : asset_detail.from_data_attenuation_model_index r.to_data_byte_num
      = r.attenuation_model_index := by
    unfold asset_detail.from_data_attenuation_model_index
    rw [(byte_num_split _).1, to_data_byte_num_eq]; omega
  have s2 : asset_detail.from_data_unused2 r.to_data_byte_num = r.unused2 := by
    unfold asset_detail.from_data_unused2
    rw [(byte_num_split _).2, to_data_byte_num_eq]; omega
  rw [to_data_eq]
  simp only [asset_detail.from_data, List.nil_append, List.append_assoc,
    l1, l2, l3, l4, l5, l6, l7, l8, l9, s1, s2]
  simp [asset_detail.reset]


/-! ### Truncated input fails -/

theorem failed_or_short_step {α : Type} (f : istream → α × istream) (e : data_chunk) (v : α)
    (hsticky : ∀ s : istream, s.failed = true → (f s).2.failed = true)
    (hlaw : ∀ rest, f ⟨e ++ rest, false⟩ = (v, ⟨rest, false⟩))
    (hshort : ∀ p t, t ≠ [] → p ++ t = e → (f ⟨p, false⟩).2.failed = true)
    (tail : data_chunk) (s : istream) (h : failed_or_short (e ++ tail) s) :
    failed_or_short tail (f s).2 := by
  obtain ⟨u, fl⟩ := s
  cases fl with
  | true => exact Or.inl (hsticky _ rfl)
  | false =>
    rcases h with h | ⟨t, ht, hu⟩
    · simp at h
    · simp only at hu
      rcases List.append_eq_append_iff.mp hu with ⟨a, ha, hb⟩ | ⟨c, hc, hd⟩
      · by_cases hne : a = []
        · subst hne
          simp only [List.append_nil, List.nil_append] at ha hb
          subst ha
          have hl := hlaw []
          simp only [List.append_nil] at hl
          right
          rw [hl]
          exact ⟨t, ht, by simp [hb]⟩
        · left
          exact hshort u a hne ha.symm
      · subst hc
        right
        rw [hlaw c]
        exact ⟨t, ht, hd.symm⟩

theorem from_data_of_failed (rd : reader) (prev : asset_detail) (source : istream)
    (h : (after_reads rd source).failed = true) :
    asset_detail.from_data rd prev source
      = (false, ⟨[], 0, 0, 0, 0, 0, 0, [], [], []⟩, after_reads rd source) := by
  simp only [after_reads] at h
  simp [asset_detail.from_data, after_reads, h, reset_eq_default]

/-- A strict beginning of the bytes written for a well-formed record does
not decode: `from_data` returns false and leaves the default record. -/
theorem from_data_truncated (rd : reader) (wr : writer) (hu : rd.undoes wr)
    (hst : rd.sticky) (hsh : rd.fails_short wr) (prev r : asset_detail)
    (hr : r.well_formed) (p t : data_chunk) (ht : t ≠ [])
    (hp : p ++ t = r.to_data_chunk wr) :
    asset_detail.from_data_chunk rd prev p = (false, ⟨[], 0, 0, 0, 0, 0, 0, [], [], []⟩) := by
  obtain ⟨lb, l8, ls⟩ := hu
  obtain ⟨sb, s8, ss⟩ := hsh
  obtain ⟨h1, h2, h3, h4, h5, h6, h7, h8, h9, h10, -⟩ := hr
  have hbn : r.to_data_byte_num < 256 := by
    rw [to_data_byte_num_eq]; omega
  have kb := fun s hs => (hst s hs).1
  have k8 := fun s hs => (hst s hs).2.1
  have ks := fun s hs => (hst s hs).2.2
  have h0 : failed_or_short (wr.string r.symbol
      ++ (wr.eight_bytes_little_endian r.maximum_supply
      ++ (wr.byte r.decimal_number
      ++ (wr.byte r.secondaryissue_threshold
      ++ (wr.byte r.to_data_byte_num
      ++ (wr.byte r.unused3
      ++ (wr.string r.issuer
      ++ (wr.string r.address
      ++ (wr.string r.description ++ []))))))))) ⟨p, false⟩ := by
    right
    refine ⟨t, ht, ?_⟩
    rw [show (⟨p, false⟩ : istream).unread = p from rfl, hp, asset_detail.to_data_chunk,
      to_data_eq]
    simp
  have a1 := failed_or_short_step rd.read_string _ r.symbol ks
    (fun rest => ls _ rest h7) (fun p t ht e => ss _ p t h7 ht e) _ _ h0
  have a2 := failed_or_short_step rd.read_8_bytes_little_endian _ r.maximum_supply k8
    (fun rest => l8 _ rest h1) (fun p t ht e => s8 _ p t h1 ht e) _ _ a1
  have a3 := failed_or_short_step rd.read_byte _ r.decimal_number kb
    (fun rest => lb _ rest h2) (fun p t ht e => sb _ p t h2 ht e) _ _ a2
  have a4 := failed_or_short_step rd.read_byte _ r.secondaryissue_threshold kb
    (fun rest => lb _ rest h3) (fun p t ht e => sb _ p t h3 ht e) _ _ a3
  have a5 := failed_or_short_step rd.read_byte _ r.to_data_byte_num kb
    (fun rest => lb _ rest hbn) (fun p t ht e => sb _ p t hbn ht e) _ _ a4
  have a6 := failed_or_short_step rd.read_byte _ r.unused3 kb
    (fun rest => lb _ rest h6) (fun p t ht e => sb _ p t h6 ht e) _ _ a5
  have a7 := failed_or_short_step rd.read_string _ r.issuer ks
    (fun rest => ls _ rest h8) (fun p t ht e => ss _ p t h8 ht e) _ _ a6
  have a8 := failed_or_short_step rd.read_string _ r.address ks
    (fun rest => ls _ rest h9) (fun p t ht e => ss _ p t h9 ht e) _ _ a7
  have a9 := failed_or_short_step rd.read_string _ r.description ks
    (fun rest => ls _ rest h10) (fun p t ht e => ss _ p t h10 ht e) _ _ a8
  have hfail : (after_reads rd ⟨p, false⟩).failed = true := by
    rcases a9 with hf | ⟨t', ht', e'⟩
    · exact hf
    · exact absurd (List.append_eq_nil.mp e').2 ht'
  simp [asset_detail.from_data_chunk, from_data_of_failed rd prev _ hfail]

theorem read_data_of_failed (n : Nat) (s : istream) (h : s.failed = true) :
    (read_data n s).2.failed = true := by
  simp [read_data, h]

theorem read_data_short (n : Nat) (p : data_chunk) (h : p.length < n) :
    (read_data n ⟨p, false⟩).2.failed = true := by
  simp [read_data, h]

theorem read_little_endian_of_failed (n : Nat) (s : istream) (h : s.failed = true) :
    read_little_endian n s = (0, s) := by
  simp [read_little_endian, read_data, h, from_little_endian]

theorem read_variable_uint_of_failed (s : istream) (h : s.failed = true) :
    read_variable_uint_little_endian s = (0, s) := by
  simp [read_variable_uint_little_endian, read_little_endian_of_failed _ s h]

theorem read_little_endian_short (k n : Nat) (p t : data_chunk) (ht : t ≠ [])
    (e : p ++ t = to_little_endian k n) :
    (read_little_endian k ⟨p, false⟩).2.failed = true := by
  have hl := congrArg List.length e
  rw [List.length_append, to_little_endian_length] at hl
  have : 0 < t.length := List.length_pos.mpr ht
  exact read_data_short k p (by omega)

theorem read_variable_uint_short (n : Nat) (p t : data_chunk) (ht : t ≠ [])
    (e : p ++ t = write_variable_uint_little_endian n) :
    (read_variable_uint_little_endian ⟨p, false⟩).2.failed = true := by
  have hempty : (read_variable_uint_little_endian ⟨[], false⟩).2.failed = true := by
    simp [read_variable_uint_little_endian, read_little_endian, read_data, from_little_endian]
  have hmark : ∀ (m k : Nat) (q : data_chunk), (m = 0xfd ∧ k = 2) ∨ (m = 0xfe ∧ k = 4)
      ∨ (m = 0xff ∧ k = 8) → q ++ t = to_little_endian k n →
      (read_variable_uint_little_endian ⟨m :: q, false⟩).2.failed = true := by
    intro m k q hm hq
    have hs := read_little_endian_short k n q t ht hq
    rcases hm with ⟨rfl, rfl⟩ | ⟨rfl, rfl⟩ | ⟨rfl, rfl⟩ <;>
      simpa [read_variable_uint_little_endian, read_byte_cons] using hs
  unfold write_variable_uint_little_endian at e
  cases p with
  | nil => exact hempty
  | cons m q =>
    split_ifs at e with c1 c2 c3
    · simp at e
      exact absurd e.2.2 ht
    · simp only [List.cons_append, List.cons.injEq] at e
      exact hmark m 2 q (Or.inl ⟨e.1, rfl⟩) e.2
    · simp only [List.cons_append, List.cons.injEq] at e
      exact hmark m 4 q (Or.inr (Or.inl ⟨e.1, rfl⟩)) e.2
    · simp only [List.cons_append, List.cons.injEq] at e
      exact hmark m 8 q (Or.inr (Or.inr ⟨e.1, rfl⟩)) e.2

theorem istream_reader_sticky : istream_reader.sticky := by
  intro s hs
  refine ⟨?_, ?_, ?_⟩
  · show (read_little_endian 1 s).2.failed = true
    rw [read_little_endian_of_failed _ s hs]; exact hs
  · show (read_little_endian 8 s).2.failed = true
    rw [read_little_endian_of_failed _ s hs]; exact hs
  · show (read_data _ (read_variable_uint_little_endian s).2).2.failed = true
    rw [read_variable_uint_of_failed s hs]
    exact read_data_of_failed _ s hs

theorem istream_reader_fails_short : istream_reader.fails_short ostream_writer := by
  refine ⟨?_, ?_, ?_⟩
  · intro b p t _ ht e
    exact read_little_endian_short 1 b p t ht e
  · intro n p t _ ht e
    exact read_little_endian_short 8 n p t ht e
  · intro s p t hs ht e
    show (read_data _ (read_variable_uint_little_endian ⟨p, false⟩).2).2.failed = true
    have e' : p ++ t = write_variable_uint_little_endian s.length ++ s := e
    rcases List.append_eq_append_iff.mp e' with ⟨a, ha, hb⟩ | ⟨c, hc, hd⟩
    · by_cases hne : a = []
      · subst hne
        simp only [List.append_nil, List.nil_append] at ha hb
        have hrd := read_write_variable_uint s.length [] hs.2
        rw [List.append_nil, ha] at hrd
        rw [hrd]
        have : 0 < t.length := List.length_pos.mpr ht
        exact read_data_short _ _ (by rw [← hb]; simpa using this)
      · exact read_data_of_failed _ _ (read_variable_uint_short s.length p a hne ha.symm)
    · subst hc
      rw [read_write_variable_uint s.length c hs.2]
      have : 0 < t.length := List.length_pos.mpr ht
      exact read_data_short _ _ (by rw [hd, List.length_append]; omega)

/-- With the concrete reader and writer: every strict beginning of a
well-formed record's encoding, the empty input included, fails to decode
and leaves the default record. -/
theorem istream_reader_from_data_truncated (prev r : asset_detail) (hr : r.well_formed)
    (p t : data_chunk) (ht : t ≠ []) (hp : p ++ t = r.to_data_chunk ostream_writer) :
    asset_detail.from_data_chunk istream_reader prev p
      = (false, ⟨[], 0, 0, 0, 0, 0, 0, [], [], []⟩) :=
  from_data_truncated istream_reader ostream_writer istream_reader_undoes_ostream_writer
    istream_reader_sticky istream_reader_fails_short prev r hr p t ht hp

theorem istream_reader_from_data_empty (prev : asset_detail) :
    asset_detail.from_data_chunk istream_reader prev []
      = (false, ⟨[], 0, 0, 0, 0, 0, 0, [], [], []⟩) := by
  rfl
/-! ### Double rounding: bounds -/

open asset_detail

/-- C1: round trip.  For any reader whose three reads undo the writer's
matching writes, any well-formed record `r` and any record `prev` the decode
is run on, `from_data` applied to the bytes `to_data` produced for `r`
returns true and leaves a record equal to `r` (every field: symbol,
maximum_supply, decimal_number, raw secondaryissue_threshold,
attenuation_model_index, unused2, unused3, issuer, address, description). -/
theorem C1_from_data_to_data_round_trip (rd : reader) (wr : writer)
    (h : rd.undoes wr) (prev r : asset_detail) (hr : r.well_formed) :
    asset_detail.from_data_chunk rd prev (r.to_data_chunk wr) = (true, r) := by
  have e := from_data_to_data_append rd wr h prev r hr []
  rw [List.append_nil] at e
  simp [asset_detail.from_data_chunk, asset_detail.to_data_chunk, e]

/-- C1 at the concrete reader and writer, on a valid sample record. -/
theorem C1_round_trip_witness :
    istream_reader.undoes ostream_writer ∧ sample_record.well_formed
      ∧ sample_record.is_valid = true
      ∧ asset_detail.from_data_chunk istream_reader stale_record
          (sample_record.to_data_chunk ostream_writer) = (true, sample_record) :=
  ⟨istream_reader_undoes_ostream_writer, by decide, by decide,
    C1_from_data_to_data_round_trip istream_reader ostream_writer
      istream_reader_undoes_ostream_writer stale_record sample_record (by decide)⟩

/-- C2: decoding is all-or-nothing.  For every reader, every prior record
and every input stream, with `s9` the stream after the ninth (last) read:
`from_data` returns true exactly when `s9` is still good; when it returns
false the record is the default `reset()` record, whatever it held before;
when it returns true the record holds exactly the values read. -/
theorem C2_from_data_all_or_nothing (rd : reader) (prev : asset_detail) (source : istream) :
    let r1 := rd.read_string source
    let r2 := rd.read_8_bytes_little_endian r1.2
    let r3 := rd.read_byte r2.2
    let r4 := rd.read_byte r3.2
    let r5 := rd.read_byte r4.2
    let r6 := rd.read_byte r5.2
    let r7 := rd.read_string r6.2
    let r8 := rd.read_string r7.2
    let r9 := rd.read_string r8.2
    let out := asset_detail.from_data rd prev source
    (out.1 = !r9.2.failed)
      ∧ out.2.2 = r9.2
      ∧ (out.1 = false →
          out.2.1 = prev.reset ∧ out.2.1 = ⟨[], 0, 0, 0, 0, 0, 0, [], [], []⟩)
      ∧ (out.1 = true →
          out.2.1 = ⟨r1.1, r2.1, r3.1, r4.1, r5.1 &&& 0x7, (r5.1 >>> 3) &&& 0x1f,
            r6.1, r7.1, r8.1, r9.1⟩) := by
  intro r1 r2 r3 r4 r5 r6 r7 r8 r9 out
  have hout : out = asset_detail.from_data rd prev source := rfl
  simp only [asset_detail.from_data] at hout
  cases hf : r9.2.failed
  · have hf2 : (rd.read_string (rd.read_string (rd.read_string (rd.read_byte
        (rd.read_byte (rd.read_byte (rd.read_byte (rd.read_8_bytes_little_endian
        (rd.read_string source).2).2).2).2).2).2).2).2).2.failed = false := hf
    simp only [hf2] at hout
    rw [hout]
    simp [asset_detail.reset, asset_detail.from_data_attenuation_model_index,
      asset_detail.from_data_unused2, r1, r2, r3, r4, r5, r6, r7, r8, r9]
  · have hf2 : (rd.read_string (rd.read_string (rd.read_string (rd.read_byte
        (rd.read_byte (rd.read_byte (rd.read_byte (rd.read_8_bytes_little_endian
        (rd.read_string source).2).2).2).2).2).2).2).2).2.failed = true := hf
    simp only [hf2] at hout
    rw [hout]
    simp [reset_eq_default, r9, r8, r7, r6, r5, r4, r3, r2, r1]

/-- C3: validity.  For every well-formed record, `is_valid()` is true if and
only if the symbol is non-empty, `maximum_supply` is not 0 and the four
string lengths plus 16 do not exceed 268 = `ASSET_DETAIL_FIX_SIZE`; an empty
symbol or a zero `maximum_supply` makes it false. -/
theorem C3_is_valid_iff (r : asset_detail) (hr : r.well_formed) :
    ASSET_DETAIL_FIX_SIZE = 268
      ∧ (r.is_valid = true ↔
          r.symbol ≠ [] ∧ r.maximum_supply ≠ 0
            ∧ r.symbol.length + r.issuer.length + r.address.length
                + r.description.length + 16 ≤ 268)
      ∧ (r.symbol = [] → r.is_valid = false)
      ∧ (r.maximum_supply = 0 → r.is_valid = false) := by
  have hsz := hr.2.2.2.2.2.2.2.2.2.2
  have hmod : to_size_t (r.symbol.length + 8 + 4 + r.issuer.length + r.address.length
      + r.description.length + 4)
      = r.symbol.length + r.issuer.length + r.address.length
          + r.description.length + 16 := by
    unfold to_size_t
    rw [Nat.mod_eq_of_lt (by omega)]
    omega
  refine ⟨by decide, ?_, ?_, ?_⟩
  · simp only [asset_detail.is_valid, hmod, (by decide : ASSET_DETAIL_FIX_SIZE = 268)]
    cases hsym : r.symbol <;> simp
  · intro h
    simp [asset_detail.is_valid, h]
  · intro h
    simp [asset_detail.is_valid, h]

/-- C3 on the valid sample record. -/
theorem C3_is_valid_witness :
    sample_record.well_formed ∧ sample_record.is_valid = true
      ∧ (sample_record.is_valid = true ↔
          sample_record.symbol ≠ [] ∧ sample_record.maximum_supply ≠ 0
            ∧ sample_record.symbol.length + sample_record.issuer.length
                + sample_record.address.length
                + sample_record.description.length + 16 ≤ 268) :=
  ⟨by decide, by decide, (C3_is_valid_iff sample_record (by decide)).2.1⟩

/-- C4: the flag and the effective threshold.  For every record, with `t`
its raw threshold byte: `is_asset_secondaryissue()` is true iff `t >= 128`;
`get_secondaryissue_threshold()` is 255 when `t = 255`, `t - 128` when
`128 <= t <= 254`, and `t` when `t < 128`. -/
theorem C4_effective_threshold (r : asset_detail) :
    (r.is_asset_secondaryissue = true ↔ r.secondaryissue_threshold ≥ 128)
      ∧ (r.secondaryissue_threshold = 255 → r.get_secondaryissue_threshold = 255)
      ∧ (128 ≤ r.secondaryissue_threshold ∧ r.secondaryissue_threshold ≤ 254 →
          r.get_secondaryissue_threshold = r.secondaryissue_threshold - 128)
      ∧ (r.secondaryissue_threshold < 128 →
          r.get_secondaryissue_threshold = r.secondaryissue_threshold) := by
  refine ⟨by simp [asset_detail.is_asset_secondaryissue], ?_, ?_, ?_⟩
  · intro h
    simp [asset_detail.get_secondaryissue_threshold, asset_detail.is_secondaryissue_freely,
      is_secondaryissue_freely_value, h]
  · rintro ⟨h1, h2⟩
    have hne : r.secondaryissue_threshold ≠ 255 := by omega
    simp only [asset_detail.get_secondaryissue_threshold, asset_detail.is_secondaryissue_freely,
      is_secondaryissue_freely_value, asset_detail.is_asset_secondaryissue,
      to_uint8_sub_128 _ h1]
    simp [hne, h1]
    omega
  · intro h
    have hne : r.secondaryissue_threshold ≠ 255 := by omega
    have hlt : ¬ 128 ≤ r.secondaryissue_threshold := by omega
    simp [asset_detail.get_secondaryissue_threshold, asset_detail.is_secondaryissue_freely,
      is_secondaryissue_freely_value, asset_detail.is_asset_secondaryissue, hne, hlt]

/-- C5: the static classifiers on a threshold byte `v` (0..255):
forbidden iff `v = 0`; freely iff `v = 255`; legal iff `1 <= v <= 100` or
`v = 255`; value-ok fails exactly for `101 <= v <= 254`. -/
theorem C5_threshold_classifiers (v : Nat) (hv : v < 256) :
    (is_secondaryissue_forbidden_value v = true ↔ v = 0)
      ∧ (is_secondaryissue_freely_value v = true ↔ v = 255)
      ∧ (is_secondaryissue_legal_value v = true ↔ (1 ≤ v ∧ v ≤ 100) ∨ v = 255)
      ∧ (is_secondaryissue_threshold_value_ok_value v = false ↔ 101 ≤ v ∧ v ≤ 254) := by
  refine ⟨?_, ?_, ?_, ?_⟩
  · simp [is_secondaryissue_forbidden_value]
  · simp [is_secondaryissue_freely_value]
  · simp [is_secondaryissue_legal_value, is_secondaryissue_freely_value]
    omega
  · simp [is_secondaryissue_threshold_value_ok_value, is_secondaryissue_forbidden_value,
      is_secondaryissue_legal_value, is_secondaryissue_freely_value]
    omega

/-- C5 at the values the specification lists: 0 forbidden, 255 free, 1, 50
and 100 legal, 101, 150 and 254 invalid. -/
theorem C5_threshold_classifiers_witness :
    (50 < 256 ∧ is_secondaryissue_legal_value 50 = true)
      ∧ is_secondaryissue_forbidden_value 0 = true
      ∧ is_secondaryissue_freely_value 255 = true
      ∧ is_secondaryissue_legal_value 1 = true
      ∧ is_secondaryissue_legal_value 100 = true
      ∧ is_secondaryissue_threshold_value_ok_value 101 = false
      ∧ is_secondaryissue_threshold_value_ok_value 150 = false
      ∧ is_secondaryissue_threshold_value_ok_value 254 = false :=
  ⟨⟨by decide, (C5_threshold_classifiers 50 (by decide)).2.2.1.mpr (Or.inl ⟨by decide, by decide⟩)⟩,
    by decide, by decide, by decide, by decide, by decide, by decide, by decide⟩

/-- C6: the record-level `is_secondaryissue_forbidden()` tests the raw byte.
On the record with raw byte 128 (flag bit set, share 0) the effective
threshold is 0, the static classifier calls that value forbidden and the
record-level value-ok test accepts it on that ground, yet
`is_secondaryissue_forbidden()` is false.  Raw byte 128 is what
`set_asset_secondaryissue()` leaves on a record whose byte was 0. -/
theorem C6_forbidden_tests_raw_byte :
    flagged_zero_record.well_formed
      ∧ flagged_zero_record.secondaryissue_threshold = 128
      ∧ flagged_zero_record.get_secondaryissue_threshold = 0
      ∧ flagged_zero_record.is_secondaryissue_forbidden = false
      ∧ is_secondaryissue_forbidden_value flagged_zero_record.get_secondaryissue_threshold = true
      ∧ flagged_zero_record.is_secondaryissue_threshold_value_ok = true
      ∧ flagged_zero_record.is_secondaryissue_legal = false
      ∧ ({ sample_record with secondaryissue_threshold := 0 } : asset_detail).set_asset_secondaryissue
          = flagged_zero_record := by
  decide

/-- C7: `set_asset_secondaryissue()` is idempotent.  For every record, a
second call changes nothing (same raw byte, same record), the flag is set
after one call, and a record whose flag is already set is left as it is. -/
theorem C7_set_asset_secondaryissue_idempotent (r : asset_detail) :
    r.set_asset_secondaryissue.set_asset_secondaryissue = r.set_asset_secondaryissue
      ∧ r.set_asset_secondaryissue.set_asset_secondaryissue.secondaryissue_threshold
          = r.set_asset_secondaryissue.secondaryissue_threshold
      ∧ r.set_asset_secondaryissue.is_asset_secondaryissue = true
      ∧ (r.is_asset_secondaryissue = true → r.set_asset_secondaryissue = r) := by
  have hflag : r.set_asset_secondaryissue.is_asset_secondaryissue = true := by
    unfold asset_detail.set_asset_secondaryissue
    by_cases h : 128 ≤ r.secondaryissue_threshold
    · simp [asset_detail.is_asset_secondaryissue, h]
    · simp only [asset_detail.is_asset_secondaryissue, h, to_uint8_add_128]
      simp
      omega
  have hkeep : ∀ s : asset_detail, s.is_asset_secondaryissue = true →
      s.set_asset_secondaryissue = s := by
    intro s hs
    simp [asset_detail.set_asset_secondaryissue, hs]
  have htwice := hkeep _ hflag
  exact ⟨htwice, by rw [htwice], hflag, hkeep r⟩

/-- C8: the ownership gate outside the percentage range.  Whatever the
value of the floating-point share, for every `own` and `total`: with
threshold 255 the gate is open (also for `own = 0`), and with a threshold
that is not legal (0, or 101..254) it is closed. -/
theorem C8_owns_enough_free_and_illegal (share : Nat → Nat → Nat) (own total : Nat) :
    is_secondaryissue_owns_enough share own total 255 = true
      ∧ is_secondaryissue_owns_enough share 0 total 255 = true
      ∧ (∀ threshold, threshold = 0 ∨ (101 ≤ threshold ∧ threshold ≤ 254) →
          is_secondaryissue_legal_value threshold = false
            ∧ is_secondaryissue_owns_enough share own total threshold = false) := by
  refine ⟨by simp [is_secondaryissue_owns_enough, is_secondaryissue_freely_value],
    by simp [is_secondaryissue_owns_enough, is_secondaryissue_freely_value], ?_⟩
  intro threshold h
  have h255 : threshold ≠ 255 := by omega
  have hlegal : is_secondaryissue_legal_value threshold = false := by
    simp only [is_secondaryissue_legal_value, is_secondaryissue_freely_value]
    simp [h255]
    omega
  refine ⟨hlegal, ?_⟩
  simp [is_secondaryissue_owns_enough, is_secondaryissue_freely_value, h255, hlegal]

/-- C10: the packed byte.  For every record with index in 0..7 and unused2
in 0..31, the sum `index + (unused2 << 3)` equals `index | (unused2 << 3)`,
is below 256, is the byte `to_data` writes, and the split `from_data` applies
gives back the same index and unused2; for every byte `b`, a record holding
the split of `b` packs to `b`, and the split always lands in 0..7 and 0..31.
Instance: index 1 and unused2 0x1B pack to 0xD9, which splits into 1 and
0x1B. -/
theorem C10_packed_byte_bijection :
    (∀ r : asset_detail, r.attenuation_model_index < 8 → r.unused2 < 32 →
        r.attenuation_model_index + (r.unused2 <<< 3)
            = r.attenuation_model_index ||| (r.unused2 <<< 3)
          ∧ r.attenuation_model_index + (r.unused2 <<< 3) < 256
          ∧ r.to_data_byte_num = r.attenuation_model_index + (r.unused2 <<< 3)
          ∧ from_data_attenuation_model_index r.to_data_byte_num = r.attenuation_model_index
          ∧ from_data_unused2 r.to_data_byte_num = r.unused2)
      ∧ (∀ (b : Nat) (r : asset_detail), b < 256 →
          r.attenuation_model_index = from_data_attenuation_model_index b →
          r.unused2 = from_data_unused2 b →
          r.to_data_byte_num = b)
      ∧ (∀ b : Nat, from_data_attenuation_model_index b < 8 ∧ from_data_unused2 b < 32)
      ∧ (sample_record.attenuation_model_index = 1 ∧ sample_record.unused2 = 0x1B
          ∧ sample_record.to_data_byte_num = 0xD9
          ∧ from_data_attenuation_model_index 0xD9 = 1
          ∧ from_data_unused2 0xD9 = 0x1B) := by
  refine ⟨?_, ?_, ?_, by decide⟩
  · intro r hi hu
    have hb := to_data_byte_num_eq r
    refine ⟨add_eq_or_shiftLeft_three _ hi _ hu, ?_, ?_, ?_, ?_⟩
    · rw [shiftLeft_three]; omega
    · rw [hb, shiftLeft_three]; omega
    · unfold asset_detail.from_data_attenuation_model_index
      rw [(byte_num_split _).1, hb]; omega
    · unfold asset_detail.from_data_unused2
      rw [(byte_num_split _).2, hb]; omega
  · intro b r hb hi hu
    unfold asset_detail.from_data_attenuation_model_index at hi
    unfold asset_detail.from_data_unused2 at hu
    rw [(byte_num_split _).1] at hi
    rw [(byte_num_split _).2] at hu
    rw [to_data_byte_num_eq, hi, hu]
    omega
  · intro b
    unfold asset_detail.from_data_attenuation_model_index asset_detail.from_data_unused2
    rw [(byte_num_split _).1, (byte_num_split _).2]
    omega

/-- The length the four string setters ask `substr` for, and what it keeps:
for a string whose size plus one is a `size_t`. -/
theorem take_setter_length (s : std_string) (cap : Nat) (hcap : cap = 64)
    (hs : s.length + 1 < 2 ^ 64) :
    (if to_size_t (s.length + 1) < cap then to_size_t (s.length + 1) else cap)
        = min (s.length + 1) 64
      ∧ s.take (min (s.length + 1) 64) = s.take (min s.length 64) := by
  subst hcap
  have hm : to_size_t (s.length + 1) = s.length + 1 := by
    unfold to_size_t; exact Nat.mod_eq_of_lt hs
  refine ⟨?_, ?_⟩
  · rw [hm]
    split_ifs with h <;> omega
  · by_cases h : s.length < 64
    · rw [show min (s.length + 1) 64 = s.length + 1 by omega,
        show min s.length 64 = s.length by omega,
        List.take_of_length_le (by omega), List.take_of_length_le (by omega)]
    · rw [show min (s.length + 1) 64 = 64 by omega, show min s.length 64 = 64 by omega]

/-- C11: the four string setters.  For every record and every input string
`s` (its size plus one a `size_t`), each of `set_symbol`, `set_issuer`,
`set_address`, `set_description` stores `s.substr(0, min(len(s) + 1, 64))`,
which is the leading `min(len(s), 64)` bytes of `s`, and changes no other
field; an input of at most 64 bytes (63, 64) is stored as it is, a longer
one (65) as its first 64 bytes. -/
theorem C11_string_setters_truncate (r : asset_detail) (s : std_string)
    (hs : s.length + 1 < 2 ^ 64) :
    r.set_symbol s = { r with symbol := s.take (min (s.length + 1) 64) }
      ∧ r.set_issuer s = { r with issuer := s.take (min (s.length + 1) 64) }
      ∧ r.set_address s = { r with address := s.take (min (s.length + 1) 64) }
      ∧ r.set_description s = { r with description := s.take (min (s.length + 1) 64) }
      ∧ s.take (min (s.length + 1) 64) = s.take (min s.length 64)
      ∧ (s.length ≤ 64 → s.take (min (s.length + 1) 64) = s)
      ∧ (64 ≤ s.length → (s.take (min (s.length + 1) 64)).length = 64
          ∧ s.take (min (s.length + 1) 64) = s.take 64) := by
  have h1 := (take_setter_length s ASSET_DETAIL_SYMBOL_FIX_SIZE rfl hs).1
  have h2 := (take_setter_length s ASSET_DETAIL_ISSUER_FIX_SIZE rfl hs).1
  have h3 := (take_setter_length s ASSET_DETAIL_ADDRESS_FIX_SIZE rfl hs).1
  have h4 := (take_setter_length s ASSET_DETAIL_DESCRIPTION_FIX_SIZE rfl hs).1
  refine ⟨?_, ?_, ?_, ?_, (take_setter_length s 64 rfl hs).2, ?_, ?_⟩
  · simp only [asset_detail.set_symbol, h1]
  · simp only [asset_detail.set_issuer, h2]
  · simp only [asset_detail.set_address, h3]
  · simp only [asset_detail.set_description, h4]
  · intro h
    exact List.take_of_length_le (by omega)
  · intro h
    rw [show min (s.length + 1) 64 = 64 by omega]
    exact ⟨by rw [List.length_take]; omega, rfl⟩

/-- C11 on a 65-byte input: 64 bytes are stored, the first 64 of the input,
and the other fields of the sample record stay. -/
theorem C11_string_setters_witness :
    (List.range 65).length + 1 < 2 ^ 64
      ∧ (sample_record.set_symbol (List.range 65)).symbol = List.range 64
      ∧ sample_record.set_symbol (List.range 65)
          = { sample_record with symbol := List.range 64 }
      ∧ (sample_record.set_symbol (List.range 63)).symbol = List.range 63
      ∧ (sample_record.set_symbol (List.range 64)).symbol = List.range 64 :=
  ⟨by decide,
    by rw [(C11_string_setters_truncate sample_record (List.range 65) (by decide)).1]; decide,
    by decide, by decide, by decide⟩

/-- C12: the certificate mask.  With `asset_cert_ns::none` the empty mask
and `asset_cert_ns::issue` a non-empty one, for every record the mask
returned by `get_asset_cert_mask()` is `issue` when the effective threshold
is legal (in 1..100, or 255) and `none` otherwise; so it contains `issue`
if and only if the threshold is legal, and never holds anything else. -/
theorem C12_asset_cert_mask (none issue : Nat) (r : asset_detail)
    (hnone : none = 0) (hissue : issue ≠ 0) :
    (r.is_secondaryissue_legal = true ↔
        (1 ≤ r.get_secondaryissue_threshold ∧ r.get_secondaryissue_threshold ≤ 100)
          ∨ r.get_secondaryissue_threshold = 255)
      ∧ (r.get_asset_cert_mask none issue &&& issue = issue ↔
          r.is_secondaryissue_legal = true)
      ∧ (r.is_secondaryissue_legal = true → r.get_asset_cert_mask none issue = issue)
      ∧ (r.is_secondaryissue_legal = false → r.get_asset_cert_mask none issue = none) := by
  subst hnone
  have hlegal : r.get_asset_cert_mask 0 issue
      = if r.is_secondaryissue_legal = true then issue else 0 := by
    simp [asset_detail.get_asset_cert_mask]
  refine ⟨?_, ?_, ?_, ?_⟩
  · simp only [asset_detail.is_secondaryissue_legal, is_secondaryissue_legal_value,
      is_secondaryissue_freely_value]
    simp
    tauto
  · rw [hlegal]
    cases r.is_secondaryissue_legal
    · simpa using hissue.symm
    · simp
  · intro h
    rw [hlegal, if_pos h]
  · intro h
    rw [hlegal, h]
    simp

/-- C12 with `none = 0` and `issue = 1`: the sample record (share 50) gets
the issue bit, the record with share 0 gets the empty mask. -/
theorem C12_asset_cert_mask_witness :
    sample_record.get_asset_cert_mask 0 1 = 1
      ∧ flagged_zero_record.get_asset_cert_mask 0 1 = 0 :=
  ⟨(C12_asset_cert_mask 0 1 sample_record rfl (by decide)).2.2.1 (by decide),
    (C12_asset_cert_mask 0 1 flagged_zero_record rfl (by decide)).2.2.2 (by decide)⟩

theorem size_sum_eq (r : asset_detail) (hr : r.well_formed) :
    to_size_t (r.symbol.length + 8 + 4 + r.issuer.length + r.address.length
        + r.description.length + 4)
      = r.symbol.length + r.issuer.length + r.address.length
          + r.description.length + 16 := by
  have hsz := hr.2.2.2.2.2.2.2.2.2.2
  unfold to_size_t
  rw [Nat.mod_eq_of_lt (by omega)]
  omega

/-- C13: the size estimate.  For every well-formed record,
`serialized_size()` is the smaller of 268 and
`len(symbol) + 8 + 4 + len(issuer) + len(address) + len(description) + 4`;
it is at most 268 and at least 16, and it is below the uncapped sum exactly
when that sum exceeds 268. -/
theorem C13_serialized_size_capped (r : asset_detail) (hr : r.well_formed) :
    r.serialized_size = min 268 (r.symbol.length + 8 + 4 + r.issuer.length
        + r.address.length + r.description.length + 4)
      ∧ r.serialized_size ≤ 268
      ∧ 16 ≤ r.serialized_size
      ∧ (r.serialized_size < r.symbol.length + 8 + 4 + r.issuer.length
            + r.address.length + r.description.length + 4
          ↔ 268 < r.symbol.length + 8 + 4 + r.issuer.length
            + r.address.length + r.description.length + 4) := by
  have hs : r.serialized_size = min 268 (r.symbol.length + r.issuer.length
      + r.address.length + r.description.length + 16) := by
    simp only [asset_detail.serialized_size, size_sum_eq r hr]
    rfl
  rw [hs]
  refine ⟨?_, ?_, ?_, ?_⟩ <;> omega

set_option maxRecDepth 8192 in
/-- C13 on the sample record (24 bytes, under the cap) and on the oversize
one (324 bytes, reported as 268). -/
theorem C13_serialized_size_witness :
    sample_record.well_formed ∧ sample_record.serialized_size = 24
      ∧ oversize_record.well_formed ∧ oversize_record.serialized_size = 268
      ∧ oversize_record.serialized_size < oversize_record.symbol.length + 8 + 4
          + oversize_record.issuer.length + oversize_record.address.length
          + oversize_record.description.length + 4 :=
  ⟨by decide, by decide, by decide, by decide,
    (C13_serialized_size_capped oversize_record (by decide)).2.2.2.mpr (by decide)⟩

/-- When the stream is still good after the ninth read, `from_data` returns
true with the values read. -/
theorem from_data_of_good (rd : reader) (prev : asset_detail) (source : istream)
    (h : (after_reads rd source).failed = false) :
    (asset_detail.from_data rd prev source).1 = true
      ∧ (asset_detail.from_data rd prev source).2.1.attenuation_model_index
          = (rd.read_byte (rd.read_byte (rd.read_byte (rd.read_8_bytes_little_endian
              (rd.read_string source).2).2).2).2).1 &&& 0x7 := by
  simp only [after_reads] at h
  simp [asset_detail.from_data, h, asset_detail.from_data_attenuation_model_index]

theorem is_attenuation_model_index_valid_iff (r : asset_detail) :
    r.is_attenuation_model_index_valid = true ↔ r.attenuation_model_index < 3 := by
  simp [asset_detail.is_attenuation_model_index_valid, ATTENUATION_MODEL_FIRST_UNUSED,
    MODEL2UINT8]

/-- C14: the attenuation-model check is not part of decoding.  For any
reader that undoes the writer, the stream written for well-formed field
values with any packed byte `b` decodes with result true, and afterwards
`is_attenuation_model_index_valid()` is true iff the low 3 bits of `b` are
below 3; with low bits 3..7 the decode still returns true and the predicate
is false.  More generally, on any stream that any reader leaves good after
the nine reads, the result is true and the predicate is decided by the low
3 bits of the fifth value read. -/
theorem C14_model_index_check_is_semantic (rd : reader) (wr : writer) (h : rd.undoes wr)
    (prev r : asset_detail) (hr : r.well_formed) (b : Nat) (hb : b < 256) :
    let packed : asset_detail :=
      { r with attenuation_model_index := from_data_attenuation_model_index b,
               unused2 := from_data_unused2 b }
    let out := asset_detail.from_data_chunk rd prev (packed.to_data_chunk wr)
    packed.to_data_byte_num = b
      ∧ out.1 = true
      ∧ (out.2.is_attenuation_model_index_valid = true ↔ b &&& 0x7 < 3)
      ∧ (3 ≤ b &&& 0x7 → out.1 = true ∧ out.2.is_attenuation_model_index_valid = false)
      ∧ (∀ (rd' : reader) (source : istream), (after_reads rd' source).failed = false →
          (asset_detail.from_data rd' prev source).1 = true
            ∧ ((asset_detail.from_data rd' prev source).2.1.is_attenuation_model_index_valid
                  = true ↔
                (rd'.read_byte (rd'.read_byte (rd'.read_byte (rd'.read_8_bytes_little_endian
                  (rd'.read_string source).2).2).2).2).1 &&& 0x7 < 3)) := by
  intro packed out
  have hsplit := byte_num_split b
  have hi : packed.attenuation_model_index = b % 8 := hsplit.1
  have hu : packed.unused2 = b / 8 % 32 := hsplit.2
  have hwf : packed.well_formed := by
    obtain ⟨h1, h2, h3, -, -, h6, h7, h8, h9, h10, h11⟩ := hr
    exact ⟨h1, h2, h3, by rw [hi]; omega, by rw [hu]; omega, h6, h7, h8, h9, h10, h11⟩
  have hbyte : packed.to_data_byte_num = b := by
    rw [to_data_byte_num_eq, hi, hu]; omega
  have e := from_data_to_data_append rd wr h prev packed hwf []
  rw [List.append_nil] at e
  have hout : out = (true, packed) := by
    simp [out, asset_detail.from_data_chunk, asset_detail.to_data_chunk, e]
  have hvalid : out.2.is_attenuation_model_index_valid = true ↔ b &&& 0x7 < 3 := by
    rw [hout, is_attenuation_model_index_valid_iff]
    exact Iff.rfl
  refine ⟨hbyte, by rw [hout], hvalid, ?_, ?_⟩
  · intro h3
    refine ⟨by rw [hout], ?_⟩
    cases hv : out.2.is_attenuation_model_index_valid
    · rfl
    · have := hvalid.mp hv
      omega
  · intro rd' source hgood
    have g := from_data_of_good rd' prev source hgood
    refine ⟨g.1, ?_⟩
    rw [is_attenuation_model_index_valid_iff, g.2]

/-- C14 with the concrete reader and writer: packed byte 0xDD (low bits 5,
the reserved model `unused3`) decodes with result true and an invalid model
index; packed byte 0xD9 (low bits 1) decodes to a valid one. -/
theorem C14_model_index_witness :
    istream_reader.undoes ostream_writer ∧ sample_record.well_formed ∧ 0xDD < 256
      ∧ (asset_detail.from_data_chunk istream_reader stale_record
          (({ sample_record with attenuation_model_index := 5 } : asset_detail).to_data_chunk
            ostream_writer)).1 = true
      ∧ (asset_detail.from_data_chunk istream_reader stale_record
          (({ sample_record with attenuation_model_index := 5 } : asset_detail).to_data_chunk
            ostream_writer)).2.is_attenuation_model_index_valid = false
      ∧ (asset_detail.from_data_chunk istream_reader stale_record
          (sample_record.to_data_chunk ostream_writer)).2.is_attenuation_model_index_valid
            = true :=
  ⟨istream_reader_undoes_ostream_writer, by decide, by decide,
    (C14_model_index_check_is_semantic istream_reader ostream_writer
      istream_reader_undoes_ostream_writer stale_record sample_record (by decide) 0xDD
      (by decide)).2.1,
    by decide, by decide⟩

/-- What `set_attenuation_model_index` leaves and what `to_data` then packs:
the 3-bit field keeps `index mod 8`, `unused2` stays, and the packed byte
has `index mod 8` in its low 3 bits and `unused2` in its high 5 bits. -/
theorem set_attenuation_model_index_packed (r : asset_detail) (index : Nat)
    (hu : r.unused2 < 32) :
    r.set_attenuation_model_index index
        = { r with attenuation_model_index := index % 8 }
      ∧ (r.set_attenuation_model_index index).to_data_byte_num
          = index % 8 + 8 * r.unused2
      ∧ (r.set_attenuation_model_index index).to_data_byte_num >>> 3 = r.unused2
      ∧ (r.set_attenuation_model_index index).to_data_byte_num &&& 0x7 = index % 8 := by
  have hset : r.set_attenuation_model_index index
      = { r with attenuation_model_index := index % 8 } := rfl
  have hbyte : (r.set_attenuation_model_index index).to_data_byte_num
      = index % 8 + 8 * r.unused2 := by
    rw [to_data_byte_num_eq, hset]
    show (index % 8 + 8 * r.unused2) % 256 = _
    omega
  refine ⟨hset, hbyte, ?_, ?_⟩
  · rw [hbyte, Nat.shiftRight_eq_div_pow]; omega
  · rw [hbyte, (byte_num_split _).1]; omega

/-- C15, as stated, fails: no record and no index value, inside or outside
0..7, make the high 5 bits of the byte `to_data` packs after
`set_attenuation_model_index(index)` differ from the record's `unused2`.
At index 9 on the sample record the packed byte is still 0xD9. -/
theorem C15_no_index_corrupts_unused2 :
    (¬ ∃ (r : asset_detail) (index : Nat), r.well_formed ∧ 8 ≤ index
        ∧ (r.set_attenuation_model_index index).to_data_byte_num >>> 3 ≠ r.unused2)
      ∧ (sample_record.set_attenuation_model_index 9).to_data_byte_num = 0xD9
      ∧ sample_record.to_data_byte_num = 0xD9 := by
  refine ⟨?_, by decide, by decide⟩
  rintro ⟨r, index, hr, -, hne⟩
  exact hne (set_attenuation_model_index_packed r index hr.2.2.2.2.1).2.2.1

/-- C15, amended: the setter stores into the 3-bit field, so for every
well-formed record and every index value the field holds `index mod 8`,
`unused2` and every other field stay, and the byte `to_data` packs carries
`index mod 8` in its low 3 bits and the unchanged `unused2` in its high 5
bits. -/
theorem C15_setter_keeps_unused2 (r : asset_detail) (index : Nat) (hr : r.well_formed) :
    r.set_attenuation_model_index index
        = { r with attenuation_model_index := index % 8 }
      ∧ (r.set_attenuation_model_index index).unused2 = r.unused2
      ∧ (r.set_attenuation_model_index index).to_data_byte_num >>> 3 = r.unused2
      ∧ (r.set_attenuation_model_index index).to_data_byte_num &&& 0x7 = index % 8
      ∧ from_data_unused2 (r.set_attenuation_model_index index).to_data_byte_num
          = r.unused2 := by
  have h := set_attenuation_model_index_packed r index hr.2.2.2.2.1
  have hu := hr.2.2.2.2.1
  refine ⟨h.1, rfl, h.2.2.1, h.2.2.2, ?_⟩
  unfold asset_detail.from_data_unused2
  rw [(byte_num_split _).2, h.2.1]
  omega

/-- C15 amended, at index 0xFF on the sample record: the field holds 7 and
the packed byte is 0xDF, whose high 5 bits are the sample's 0x1B. -/
theorem C15_setter_keeps_unused2_witness :
    sample_record.well_formed
      ∧ (sample_record.set_attenuation_model_index 0xFF).attenuation_model_index = 7
      ∧ (sample_record.set_attenuation_model_index 0xFF).to_data_byte_num = 0xDF
      ∧ (sample_record.set_attenuation_model_index 0xFF).to_data_byte_num >>> 3 = 0x1B :=
  ⟨by decide, by decide, by decide,
    (C15_setter_keeps_unused2 sample_record 0xFF (by decide)).2.2.1⟩

/-- C16, as stated, fails at the sentinel: `invalid` has value 8, the 3-bit
field keeps 0, so after `set_attenuation_model(invalid)` the getter returns
`none` and the index getter returns 0. -/
theorem C16_invalid_model_is_not_kept :
    MODEL2UINT8 attenuation_model.invalid = 8
      ∧ (sample_record.set_attenuation_model attenuation_model.invalid).get_attenuation_model
          = some attenuation_model.none
      ∧ (sample_record.set_attenuation_model attenuation_model.invalid).get_attenuation_model
          ≠ some attenuation_model.invalid
      ∧ (sample_record.set_attenuation_model
          attenuation_model.invalid).get_attenuation_model_index = 0
      ∧ (sample_record.set_attenuation_model
          attenuation_model.invalid).get_attenuation_model_index
          ≠ MODEL2UINT8 attenuation_model.invalid := by
  decide

/-- C16, amended: for every record, every enumerator `m` other than the
sentinel `invalid` and every index `i` in 0..7: after
`set_attenuation_model(m)` the getter returns `m` and the index getter its
numeric value; after `set_attenuation_model_index(i)` the getter returns the
enumerator whose value is `i`, and the index getter `i`.  The sentinel (8)
is stored as 0: the getter then returns `none`. -/
theorem C16_model_and_index_views (r : asset_detail) (m : attenuation_model) (i : Nat)
    (hm : m ≠ attenuation_model.invalid) (hi : i < 8) :
    (r.set_attenuation_model m).get_attenuation_model = some m
      ∧ (r.set_attenuation_model m).get_attenuation_model_index = MODEL2UINT8 m
      ∧ (∃ m', (r.set_attenuation_model_index i).get_attenuation_model = some m'
          ∧ MODEL2UINT8 m' = i)
      ∧ (r.set_attenuation_model_index i).get_attenuation_model_index = i
      ∧ (r.set_attenuation_model attenuation_model.invalid).get_attenuation_model
          = some attenuation_model.none
      ∧ (r.set_attenuation_model attenuation_model.invalid).get_attenuation_model_index
          = 0 := by
  refine ⟨?_, ?_, ?_, ?_, rfl, rfl⟩
  · cases m <;> first | rfl | exact absurd rfl hm
  · cases m <;> first | rfl | exact absurd rfl hm
  · have hcases : i = 0 ∨ i = 1 ∨ i = 2 ∨ i = 3 ∨ i = 4 ∨ i = 5 ∨ i = 6 ∨ i = 7 := by omega
    rcases hcases with rfl | rfl | rfl | rfl | rfl | rfl | rfl | rfl
    · exact ⟨attenuation_model.none, rfl, rfl⟩
    · exact ⟨attenuation_model.fixed_quantity, rfl, rfl⟩
    · exact ⟨attenuation_model.fixed_rate, rfl, rfl⟩
    · exact ⟨attenuation_model.unused1, rfl, rfl⟩
    · exact ⟨attenuation_model.unused2, rfl, rfl⟩
    · exact ⟨attenuation_model.unused3, rfl, rfl⟩
    · exact ⟨attenuation_model.unused4, rfl, rfl⟩
    · exact ⟨attenuation_model.unused5, rfl, rfl⟩
  · show i % 8 = i
    omega

/-- C16 amended, at the model `fixed_rate` and the index 5. -/
theorem C16_model_and_index_views_witness :
    attenuation_model.fixed_rate ≠ attenuation_model.invalid ∧ 5 < 8
      ∧ (sample_record.set_attenuation_model attenuation_model.fixed_rate).get_attenuation_model
          = some attenuation_model.fixed_rate
      ∧ (sample_record.set_attenuation_model_index 5).get_attenuation_model
          = some attenuation_model.unused3 :=
  ⟨by decide, by decide,
    (C16_model_and_index_views sample_record attenuation_model.fixed_rate 5 (by decide)
      (by decide)).1,
    by decide⟩

/-- C17: `from_data` does not depend on what the record held.  For every
reader, every two records `a` and `b` and every input stream, `from_data`
returns the same result, leaves the same record and the same stream. -/
theorem C17_from_data_ignores_prior_contents (rd : reader) (a b : asset_detail)
    (source : istream) :
    asset_detail.from_data rd a source = asset_detail.from_data rd b source
      ∧ (asset_detail.from_data rd a source).1 = (asset_detail.from_data rd b source).1
      ∧ (asset_detail.from_data rd a source).2.1 = (asset_detail.from_data rd b source).2.1
      ∧ (∀ data : data_chunk,
          asset_detail.from_data_chunk rd a data = asset_detail.from_data_chunk rd b data) := by
  have h : ∀ s, asset_detail.from_data rd a s = asset_detail.from_data rd b s := by
    intro s
    simp only [asset_detail.from_data, reset_eq_default]
  refine ⟨h source, by rw [h source], by rw [h source], ?_⟩
  intro data
  simp only [asset_detail.from_data_chunk, h]

/-- C18: setting a share keeps the flag.  For every record (flag bit set or
not, raw byte 255 included) and every share in 0..100, after
`set_secondaryissue_threshold(share)` the getter returns `share`,
`is_asset_secondaryissue()` is what it was, and only the raw threshold byte
has changed (to `share + 128` with the flag, to `share` without). -/
theorem C18_set_threshold_in_range (r : asset_detail) (share : Nat) (hshare : share ≤ 100) :
    (r.set_secondaryissue_threshold share).get_secondaryissue_threshold = share
      ∧ (r.set_secondaryissue_threshold share).is_asset_secondaryissue
          = r.is_asset_secondaryissue
      ∧ r.set_secondaryissue_threshold share
          = { r with secondaryissue_threshold :=
                if r.is_asset_secondaryissue then share + 128 else share } := by
  have hset : r.set_secondaryissue_threshold share
      = { r with secondaryissue_threshold :=
            if r.is_asset_secondaryissue then share + 128 else share } := by
    unfold asset_detail.set_secondaryissue_threshold
    cases r.is_asset_secondaryissue
    · simp
    · simp only [if_true, to_uint8_add_128]
      rw [Nat.mod_eq_of_lt (by omega)]
  refine ⟨?_, ?_, hset⟩
  · rw [hset]
    cases hflag : r.is_asset_secondaryissue
    · have h1 : share ≠ 255 := by omega
      have h2 : ¬ 128 ≤ share := by omega
      simp [asset_detail.get_secondaryissue_threshold, asset_detail.is_secondaryissue_freely,
        is_secondaryissue_freely_value, asset_detail.is_asset_secondaryissue, h1, h2]
    · simp only [asset_detail.get_secondaryissue_threshold,
        asset_detail.is_secondaryissue_freely, is_secondaryissue_freely_value,
        asset_detail.is_asset_secondaryissue, if_true,
        to_uint8_sub_128 (share + 128) (by omega)]
      simp
      split_ifs <;> omega
  · rw [hset]
    cases hflag : r.is_asset_secondaryissue
    · simp [asset_detail.is_asset_secondaryissue]
      omega
    · simp [asset_detail.is_asset_secondaryissue]

/-- C18 on a flagged record (raw 178), on an unflagged one and on raw 255,
with share 100; beyond the range the getter does not return the share: 127
on a flagged record reads back as 255, and 200 clears the flag. -/
theorem C18_set_threshold_witness :
    (100 ≤ 100
        ∧ (sample_record.set_secondaryissue_threshold 100).get_secondaryissue_threshold = 100)
      ∧ (sample_record.set_secondaryissue_threshold 100).secondaryissue_threshold = 228
      ∧ (({ sample_record with secondaryissue_threshold := 7 } :
            asset_detail).set_secondaryissue_threshold 100).secondaryissue_threshold = 100
      ∧ (stale_record.set_secondaryissue_threshold 100).get_secondaryissue_threshold = 100
      ∧ (sample_record.set_secondaryissue_threshold 127).get_secondaryissue_threshold = 255
      ∧ (sample_record.set_secondaryissue_threshold 200).is_asset_secondaryissue = false :=
  ⟨⟨by decide, (C18_set_threshold_in_range sample_record 100 (by decide)).1⟩,
    by decide, by decide, by decide, by decide, by decide⟩

/-- C19: marking a record as secondary issue keeps its share.  For every
record whose effective threshold is 0, in 1..100 or 255,
`set_asset_secondaryissue()` makes `is_asset_secondaryissue()` true, leaves
`get_secondaryissue_threshold()` and `is_secondaryissue_legal()` as they
were, and changes no field but the raw threshold byte. -/
theorem C19_set_flag_keeps_threshold (r : asset_detail)
    (hok : r.get_secondaryissue_threshold = 0
      ∨ (1 ≤ r.get_secondaryissue_threshold ∧ r.get_secondaryissue_threshold ≤ 100)
      ∨ r.get_secondaryissue_threshold = 255) :
    r.set_asset_secondaryissue.is_asset_secondaryissue = true
      ∧ r.set_asset_secondaryissue.get_secondaryissue_threshold
          = r.get_secondaryissue_threshold
      ∧ r.set_asset_secondaryissue.is_secondaryissue_legal = r.is_secondaryissue_legal
      ∧ r.set_asset_secondaryissue
          = { r with secondaryissue_threshold :=
                r.set_asset_secondaryissue.secondaryissue_threshold } := by
  by_cases hflag : 128 ≤ r.secondaryissue_threshold
  · have hset : r.set_asset_secondaryissue = r := by
      simp [asset_detail.set_asset_secondaryissue, asset_detail.is_asset_secondaryissue, hflag]
    rw [hset]
    exact ⟨by simp [asset_detail.is_asset_secondaryissue, hflag], rfl, rfl, rfl⟩
  · have hget : r.get_secondaryissue_threshold = r.secondaryissue_threshold := by
      have h1 : r.secondaryissue_threshold ≠ 255 := by omega
      simp [asset_detail.get_secondaryissue_threshold, asset_detail.is_secondaryissue_freely,
        is_secondaryissue_freely_value, asset_detail.is_asset_secondaryissue, h1, hflag]
    rw [hget] at hok
    have hle : r.secondaryissue_threshold ≤ 100 := by omega
    have hset : r.set_asset_secondaryissue
        = { r with secondaryissue_threshold := r.secondaryissue_threshold + 128 } := by
      simp only [asset_detail.set_asset_secondaryissue, asset_detail.is_asset_secondaryissue,
        to_uint8_add_128]
      rw [Nat.mod_eq_of_lt (by omega)]
      simp [hflag]
    have hget' : r.set_asset_secondaryissue.get_secondaryissue_threshold
        = r.get_secondaryissue_threshold := by
      rw [hget, hset]
      simp only [asset_detail.get_secondaryissue_threshold,
        asset_detail.is_secondaryissue_freely, is_secondaryissue_freely_value,
        asset_detail.is_asset_secondaryissue,
        to_uint8_sub_128 (r.secondaryissue_threshold + 128) (by omega)]
      simp
      split_ifs <;> omega
    refine ⟨?_, hget', ?_, ?_⟩
    · rw [hset]
      simp [asset_detail.is_asset_secondaryissue]
    · simp only [asset_detail.is_secondaryissue_legal, hget']
    · rw [hset]

/-- C19 on an unflagged record with share 50: the raw byte goes from 50 to
178 and the share stays 50.  Outside the hypothesis, a raw byte of 127
becomes 255 and the share is not kept. -/
theorem C19_set_flag_witness :
    (({ sample_record with secondaryissue_threshold := 50 } :
          asset_detail).get_secondaryissue_threshold = 50
        ∧ ({ sample_record with secondaryissue_threshold := 50 } :
          asset_detail).set_asset_secondaryissue.get_secondaryissue_threshold = 50)
      ∧ ({ sample_record with secondaryissue_threshold := 50 } :
          asset_detail).set_asset_secondaryissue.secondaryissue_threshold = 178
      ∧ ({ sample_record with secondaryissue_threshold := 127 } :
          asset_detail).set_asset_secondaryissue.get_secondaryissue_threshold = 255 :=
  ⟨⟨by decide,
      (C19_set_flag_keeps_threshold { sample_record with secondaryissue_threshold := 50 }
        (Or.inr (Or.inl (by decide)))).2.1⟩,
    by decide, by decide⟩

/-- C20: the cap and validity.  For every well-formed record: if
`is_valid()` is true then `serialized_size()` is exactly
`len(symbol) + len(issuer) + len(address) + len(description) + 16`; and if
the symbol is non-empty and `maximum_supply` is not 0, then `is_valid()` is
false if and only if `serialized_size()` is strictly below that sum. -/
theorem C20_cap_never_bites_on_valid (r : asset_detail) (hr : r.well_formed) :
    (r.is_valid = true →
        r.serialized_size = r.symbol.length + r.issuer.length + r.address.length
          + r.description.length + 16)
      ∧ (r.symbol ≠ [] → r.maximum_supply ≠ 0 →
          (r.is_valid = false ↔
            r.serialized_size < r.symbol.length + r.issuer.length + r.address.length
              + r.description.length + 16)) := by
  have hsum := size_sum_eq r hr
  have hs : r.serialized_size = min 268 (r.symbol.length + r.issuer.length
      + r.address.length + r.description.length + 16) := by
    simp only [asset_detail.serialized_size, hsum]
    rfl
  have hv : r.is_valid = true ↔ (r.symbol ≠ [] ∧ r.maximum_supply ≠ 0
      ∧ r.symbol.length + r.issuer.length + r.address.length
          + r.description.length + 16 ≤ 268) := by
    simp only [asset_detail.is_valid, hsum, (by decide : ASSET_DETAIL_FIX_SIZE = 268)]
    cases hsym : r.symbol <;> simp
  refine ⟨?_, ?_⟩
  · intro h
    have := (hv.mp h).2.2
    rw [hs]
    omega
  · intro h1 h2
    rw [hs]
    constructor
    · intro hf
      have hnot : ¬ (r.symbol.length + r.issuer.length + r.address.length
          + r.description.length + 16 ≤ 268) := by
        intro hle
        have := hv.mpr ⟨h1, h2, hle⟩
        rw [hf] at this
        exact Bool.false_ne_true this
      omega
    · intro hlt
      cases hval : r.is_valid
      · rfl
      · have := (hv.mp hval).2.2
        omega

set_option maxRecDepth 8192 in
/-- C20 on the valid sample record (size 24, the uncapped sum) and on the
oversize one (invalid, size 268 below its sum of 324). -/
theorem C20_cap_witness :
    sample_record.well_formed ∧ sample_record.is_valid = true
      ∧ sample_record.serialized_size
          = sample_record.symbol.length + sample_record.issuer.length
            + sample_record.address.length + sample_record.description.length + 16
      ∧ oversize_record.is_valid = false
      ∧ oversize_record.serialized_size = 268 :=
  ⟨by decide, by decide,
    (C20_cap_never_bites_on_valid sample_record (by decide)).1 (by decide),
    by decide, by decide⟩
